import Mathlib

/-!
The hello-world HTTP workload.

A shallow embedding of `workloads/hello-world/app/main.go`: the configuration
resolver `getEnv`, the two request handlers `helloWorld` and `healthCheck`, and
the entry point `main`.

The program is written against Go's standard library.  The library pieces the
program calls are modelled next to the code that calls them, each from its
documented behaviour:

* `os.LookupEnv`, `os.Hostname`: the answer of the operating system is an
  input (`Environ`, `Sys.hostname`);
* `log.Printf`, `log.Fatal`: the text handed to the logger, with the newline
  rule of `log.Output` (the time-stamp prefix of the standard logger is left
  out: it depends on the clock);
* `http.ResponseWriter`: the status and the bytes a handler writes;
* `http.ServeMux`: the pattern table with `Handle`, `match`, `handler`,
  `Handler` and `ServeHTTP`, together with `cleanPath` and `path.Clean`; the
  stripping of the port from the host (`stripHostPort`) is an input;
* `http.ListenAndServe`: its outcome is an input (`ServeResult`).

Go strings are modelled by `String`, Go `error` values by their text.
-/

namespace HelloWorld

/-! ## Operating system and logger -/

/-- The process environment as `os.LookupEnv` reads it: `none` for a variable
that is not set, `some v` for a variable that is set (`v` may be empty). -/
abbrev Environ := String → Option String

/-- Go `os.LookupEnv`: the value and whether the variable is present; the value
is empty when the variable is absent. -/
def LookupEnv (env : Environ) (key : String) : String × Bool :=
  match env key with
  | some value => (value, true)
  | none => ("", false)

/-- Go `os.Hostname`: the kernel either reports a name or the lookup fails; on
failure Go returns the empty string together with the error. -/
def Hostname (kernel : Except String String) : String × Option String :=
  match kernel with
  | .ok name => (name, none)
  | .error err => ("", some err)

/-- Go `log.Output`, the text after the prefix: a newline is appended unless the
message already ends with one. -/
def logOutput (s : String) : String :=
  if s.data.getLast? = some '\n' then s else s ++ "\n"

/-- Equality of lookup answers is decidable. -/
instance : DecidableEq (Except String String) := fun a b =>
  match a, b with
  | .ok x, .ok y =>
    if h : x = y then isTrue (by rw [h]) else isFalse (fun e => h (by cases e; rfl))
  | .error x, .error y =>
    if h : x = y then isTrue (by rw [h]) else isFalse (fun e => h (by cases e; rfl))
  | .ok _, .error _ => isFalse (fun e => by cases e)
  | .error _, .ok _ => isFalse (fun e => by cases e)

/-- What a handler can observe and change outside its response: the answer of
the kernel to a host-name lookup, and the records written to the process-wide
logger (oldest first). -/
structure Sys where
  hostname : Except String String
  log : List String
deriving DecidableEq

/-- Go `log.Printf` with the format already applied: one record is appended. -/
def logPrintf (s : Sys) (msg : String) : Sys :=
  { s with log := s.log ++ [logOutput msg] }

/-! ## Requests and responses -/

/-- The part of `net/url.URL` the program and the router read. -/
structure URL where
  Path : String
  Host : String
  RawQuery : String
deriving DecidableEq

/-- The part of `net/http.Request` a handler or the router can read. -/
structure Request where
  Method : String
  URL : URL
  Host : String
  RequestURI : String
  RemoteAddr : String
  Header : List (String × String)

/-- Go `http.ResponseWriter` as a recorder: `status` is `none` until the header
is written, `body` holds the bytes written so far. -/
structure ResponseWriter where
  status : Option Nat
  body : String
deriving DecidableEq

/-- The writer a handler receives for a new request. -/
def newResponse : ResponseWriter :=
  { status := none, body := "" }

/-- Go `ResponseWriter.WriteHeader`: the first call fixes the status, a later
call is ignored. -/
def ResponseWriter.WriteHeader (w : ResponseWriter) (code : Nat) : ResponseWriter :=
  match w.status with
  | some _ => w
  | none => { w with status := some code }

/-- Go `ResponseWriter.Write`: writes the header with status 200 when none was
written, then appends the data. -/
def ResponseWriter.Write (w : ResponseWriter) (data : String) : ResponseWriter :=
  let w1 := w.WriteHeader 200
  { w1 with body := w1.body ++ data }

/-- The server finishing a request after the handler returned: a header that
was never written is written with status 200. -/
def ResponseWriter.finishRequest (w : ResponseWriter) : ResponseWriter :=
  w.WriteHeader 200

/-- Go `http.HandlerFunc`: a handler gets the writer and the request; the
logger and the host-name lookup are threaded through `Sys`. -/
abbrev HandlerFunc := ResponseWriter → Request → Sys → ResponseWriter × Sys

/-- Serve one request on a new writer and finish it: the response sent and the
state afterwards. -/
def serveWith (h : HandlerFunc) (r : Request) (s : Sys) : ResponseWriter × Sys :=
  let out := h newResponse r s
  (out.1.finishRequest, out.2)

/-! ## The program: `main.go` -/

/-- Source `getEnv` (main.go:32-38). -/
def getEnv (env : Environ) (key fallback : String) : String :=
  let (value, present) := LookupEnv env key
  if !present then fallback else value

/-- Source `helloWorld` (main.go:21-25). -/
def helloWorld : HandlerFunc := fun w r s =>
  let s1 := logPrintf s ("Received request for " ++ r.URL.Path ++ " from " ++ r.RemoteAddr)
  let (hostname, _) := Hostname s1.hostname
  (w.Write ("Hello, World from " ++ hostname ++ "! Welcome to Cloud Native Infrastructure.\n"), s1)

/-- Source `healthCheck` (main.go:27-30). -/
def healthCheck : HandlerFunc := fun w _ s =>
  let w1 := w.WriteHeader 200
  (w1.Write "OK", s)

/-! ## The routing table: `http.ServeMux` -/

/-- Go `http.NotFound`: status 404 and the line `404 page not found`. -/
def NotFound : HandlerFunc := fun w _ s =>
  let w1 := w.WriteHeader 404
  (w1.Write "404 page not found\n", s)

/-- Go `muxEntry`. -/
structure muxEntry where
  h : HandlerFunc
  pattern : String

/-- Go `http.ServeMux`: `m` maps a pattern to its entry, `es` holds the entries
whose pattern ends in a slash, longest pattern first, `hosts` tells whether a
pattern with a host part was registered. -/
structure ServeMux where
  m : List (String × muxEntry)
  es : List muxEntry
  hosts : Bool

/-- Go `http.DefaultServeMux` at process start. -/
def DefaultServeMux : ServeMux :=
  { m := [], es := [], hosts := false }

/-- Go `appendSorted`: insert before the first entry with a shorter pattern. -/
def appendSorted : List muxEntry → muxEntry → List muxEntry
  | [], e => [e]
  | x :: xs, e =>
    if x.pattern.utf8ByteSize < e.pattern.utf8ByteSize then e :: x :: xs
    else x :: appendSorted xs e

/-- Go `ServeMux.Handle`: registering the empty pattern or a pattern twice
panics (the `error` case); a pattern ending in a slash also enters `es`. -/
def ServeMux.Handle (mux : ServeMux) (pattern : String) (handler : HandlerFunc) :
    Except String ServeMux :=
  if pattern = "" then .error "http: invalid pattern"
  else if (mux.m.lookup pattern).isSome then
    .error ("http: multiple registrations for " ++ pattern)
  else
    let e : muxEntry := { h := handler, pattern := pattern }
    .ok { m := (pattern, e) :: mux.m
          es := if pattern.data.getLast? = some '/' then appendSorted mux.es e else mux.es
          hosts := mux.hosts || !(pattern.data.head? = some '/') }

/-- Go `ServeMux.match`: an exact match first, then the longest registered
pattern ending in a slash that is a leading part of the path. -/
def ServeMux.match (mux : ServeMux) (path : String) : Option muxEntry :=
  match mux.m.lookup path with
  | some v => some v
  | none => mux.es.find? (fun e => e.pattern.data.isPrefixOf path.data)

/-- Go `ServeMux.handler`: host-specific patterns take precedence, and a path
that matches no pattern gets `NotFound`. -/
def ServeMux.handler (mux : ServeMux) (host path : String) : HandlerFunc :=
  let specific := if mux.hosts then mux.match (host ++ path) else none
  match specific with
  | some v => v.h
  | none =>
    match mux.match path with
    | some v => v.h
    | none => NotFound

/-! ### Canonical paths: `path.Clean` and `cleanPath` -/

/-- The backtracking loop of Go `path.Clean`,
`for out.w > dotdot && out.index(out.w) != '/' { out.w-- }`: the new write
index, starting from `w`. -/
def backtrackTo (dotdot : Nat) (out : List Char) : Nat → Nat
  | 0 => 0
  | w + 1 =>
    if w + 1 > dotdot ∧ out.get? (w + 1) ≠ some '/' then backtrackTo dotdot out w else w + 1

/-- The main loop of Go `path.Clean`: `rest` is the unread part of the path,
`out` the buffer written so far.  Every round reads at least one character, so
a fuel of the length of `rest` is never used up. -/
def cleanLoop (rooted : Bool) : Nat → List Char → List Char → Nat → List Char
  | 0, _, out, _ => out
  | _ + 1, [], out, _ => out
  | fuel + 1, c :: t, out, dotdot =>
    if c = '/' then
      cleanLoop rooted fuel t out dotdot
    else if c = '.' ∧ (t.isEmpty ∨ t.head? = some '/') then
      cleanLoop rooted fuel t out dotdot
    else if c = '.' ∧ t.head? = some '.' ∧ (t.tail.isEmpty ∨ t.tail.head? = some '/') then
      if out.length > dotdot then
        cleanLoop rooted fuel t.tail (out.take (backtrackTo dotdot out (out.length - 1))) dotdot
      else if !rooted then
        let out1 := if out.length > 0 then out ++ ['/'] else out
        let out2 := out1 ++ ['.', '.']
        cleanLoop rooted fuel t.tail out2 out2.length
      else
        cleanLoop rooted fuel t.tail out dotdot
    else
      let out1 :=
        if (rooted && out.length != 1) || (!rooted && out.length != 0) then out ++ ['/'] else out
      cleanLoop rooted fuel ((c :: t).dropWhile (fun x => x != '/'))
        (out1 ++ (c :: t).takeWhile (fun x => x != '/')) dotdot

/-- What the routing table does with a request: it answers 400 itself, or the
redirect handler of the library answers with `code` and the target as
location, or a handler function serves the request. -/
inductive Served where
  | badRequest
  | redirected (u : URL) (code : Nat)
  | handled (out : ResponseWriter × Sys)
deriving DecidableEq

/-- The status code of the answer. -/
def Served.status : Served → Nat
  | .badRequest => 400
  | .redirected _ code => code
  | .handled out => out.1.status.getD 200

/-- How a call of `http.ListenAndServe` ends: it keeps serving until the process
is terminated from outside, or it returns (with an error, or with `nil`). -/
inductive ServeResult where
  | blocks
  | returned (err : Option String)

/-- What `main` does, in order. -/
inductive Event where
  | logged (text : String)
  | listenAndServe (addr : String)
  | osExit (code : Nat)
  | goPanic (msg : String)
deriving DecidableEq

/-- The process while `main` runs: the shared routing table and the trace of
events so far (oldest first). -/
structure Proc where
  mux : ServeMux
  trace : List Event

/-- Go `http.HandleFunc`: register on the shared routing table. -/
def HandleFunc (p : Proc) (pattern : String) (handler : HandlerFunc) : Except String Proc :=
  match p.mux.Handle pattern handler with
  | .ok mux => .ok { p with mux := mux }
  | .error msg => .error msg

/-- An uncaught Go panic: the process stops with exit status 2. -/
def crash (p : Proc) (msg : String) : Proc :=
  { p with trace := p.trace ++ [Event.goPanic msg, Event.osExit 2] }

/-- Go `log.Fatal`: log the error, then `os.Exit(1)`. -/
def logFatal (p : Proc) (err : String) : Proc :=
  { p with trace := p.trace ++ [Event.logged (logOutput err), Event.osExit 1] }

/-- Source `main` (main.go:10-19); `listenAndServe` is the outcome of
`http.ListenAndServe` for an address. -/
def main (env : Environ) (listenAndServe : String → ServeResult) : Proc :=
  let p0 : Proc := { mux := DefaultServeMux, trace := [] }
  match HandleFunc p0 "/" helloWorld with
  | .error msg => crash p0 msg
  | .ok p1 =>
    match HandleFunc p1 "/health" healthCheck with
    | .error msg => crash p1 msg
    | .ok p2 =>
      let port := getEnv env "PORT" "8080"
      let p3 : Proc :=
        { p2 with trace := p2.trace ++ [Event.logged (logOutput ("Server starting on port " ++ port ++ "\n"))] }
      let addr := ":" ++ port
      let p4 : Proc := { p3 with trace := p3.trace ++ [Event.listenAndServe addr] }
      match listenAndServe addr with
      | .blocks => p4
      | .returned none => { p4 with trace := p4.trace ++ [Event.osExit 0] }
      | .returned (some err) => logFatal p4 err

/-- The exit status of the process, when it exits. -/
def Proc.exitCode (p : Proc) : Option Nat :=
  p.trace.findSome? fun
    | Event.osExit code => some code
    | _ => none

/-- The addresses handed to `http.ListenAndServe`, in order. -/
def Proc.listened (p : Proc) : List String :=
  p.trace.filterMap fun
    | Event.listenAndServe addr => some addr
    | _ => none

/-- The records written to the logger, in order. -/
def Proc.logged (p : Proc) : List String :=
  p.trace.filterMap fun
    | Event.logged text => some text
    | _ => none

/-- An environment in which `PORT` is set to `v`. -/
def envPort (v : String) : Environ := fun k => if k = "PORT" then some v else none

theorem logOutput_newline (s : String) : logOutput (s ++ "\n") = s ++ "\n" := by
  have h : (s ++ "\n").data.getLast? = some (Char.ofNat 10) := by
    have h1 : (s ++ "\n").data = s.data ++ [Char.ofNat 10] := by
      rw [String.data_append]
    rw [h1]; simp
  unfold logOutput
  rw [if_pos h]

theorem getEnv_some (env : Environ) (key fallback v : String) (h : env key = some v) :
    getEnv env key fallback = v := by
  simp [getEnv, LookupEnv, h]

theorem getEnv_none (env : Environ) (key fallback : String) (h : env key = none) :
    getEnv env key fallback = fallback := by
  simp [getEnv, LookupEnv, h]

/-! ### The configuration resolver -/

/-- C1: for every environment, key and fallback, `getEnv` returns the value of
the key when the key is present and the fallback otherwise; with `PORT` unset
`getEnv "PORT" "8080"` is `"8080"`, with `PORT=9090` it is `"9090"`. -/
theorem getEnv_contract (env : Environ) (key fallback : String) :
    (∀ v, env key = some v → getEnv env key fallback = v) ∧
    (env key = none → getEnv env key fallback = fallback) ∧
    (env "PORT" = none → getEnv env "PORT" "8080" = "8080") ∧
    (env "PORT" = some "9090" → getEnv env "PORT" "8080" = "9090") :=
  ⟨fun v h => getEnv_some env key fallback v h, getEnv_none env key fallback,
    getEnv_none env "PORT" "8080", getEnv_some env "PORT" "8080" "9090"⟩

/-- C2, as stated, fails: with `PORT` set to the empty string the resolved port
is the empty string, not the default. -/
theorem empty_port_resolved :
    envPort "" "PORT" = some "" ∧ getEnv (envPort "") "PORT" "8080" = "" ∧
    getEnv (envPort "") "PORT" "8080" ≠ "8080" := by
  decide

/-- C2, amended: the resolved port is the value of `PORT` whenever `PORT` is set,
the empty value included, and the default `"8080"` exactly when `PORT` is not
set; so it is non-empty whenever `PORT` is not set to the empty string. -/
theorem getEnv_port (env : Environ) :
    (∀ v, env "PORT" = some v → getEnv env "PORT" "8080" = v) ∧
    (env "PORT" = none → getEnv env "PORT" "8080" = "8080") ∧
    (env "PORT" ≠ some "" → getEnv env "PORT" "8080" ≠ "") := by
  refine ⟨fun v h => getEnv_some env _ _ v h, getEnv_none env _ _, fun h => ?_⟩
  cases hp : env "PORT" with
  | none => rw [getEnv_none env _ _ hp]; decide
  | some v =>
    rw [getEnv_some env _ _ v hp]
    intro hv
    exact h (by rw [hp, hv])

/-! ### The handlers -/

/-- C3: for every request, `healthCheck` answers with status 200, written
explicitly, and the body `OK` of two bytes without a newline; the response is
the same for every request. -/
theorem healthCheck_response (r : Request) (s : Sys) :
    (healthCheck newResponse r s).1.status = some 200 ∧
    (serveWith healthCheck r s).1 = { status := some 200, body := "OK" } ∧
    ("OK" : String).utf8ByteSize = 2 ∧
    ∀ (r2 : Request) (s2 : Sys), (serveWith healthCheck r2 s2).1 = (serveWith healthCheck r s).1 := by
  refine ⟨rfl, rfl, by decide, fun _ _ => rfl⟩

/-- C4: for every request and every host name `h` the lookup returns,
`helloWorld` answers with status 200 and the body
`Hello, World from h! Welcome to Cloud Native Infrastructure.` followed by a
newline; the handler only writes the body, so the status is the implicit one,
and the response depends on `h` only. -/
theorem helloWorld_response (r : Request) (log : List String) (h : String) :
    (serveWith helloWorld r { hostname := .ok h, log := log }).1 =
      { status := some 200,
        body := "Hello, World from " ++ h ++ "! Welcome to Cloud Native Infrastructure.\n" } ∧
    (∀ w : ResponseWriter, (helloWorld w r { hostname := .ok h, log := log }).1 =
      w.Write ("Hello, World from " ++ h ++ "! Welcome to Cloud Native Infrastructure.\n")) ∧
    ∀ (r2 : Request) (log2 : List String),
      (serveWith helloWorld r2 { hostname := .ok h, log := log2 }).1 =
        (serveWith helloWorld r { hostname := .ok h, log := log }).1 := by
  have key : ∀ (r : Request) (log : List String),
      (serveWith helloWorld r { hostname := .ok h, log := log }).1 =
      { status := some 200,
        body := "Hello, World from " ++ h ++ "! Welcome to Cloud Native Infrastructure.\n" } := by
    intro r log
    simp [serveWith, helloWorld, logPrintf, Hostname, ResponseWriter.Write,
      ResponseWriter.WriteHeader, ResponseWriter.finishRequest, newResponse]
  exact ⟨key r log, fun _ => rfl, fun r2 log2 => by rw [key r2 log2, key r log]⟩

/-- C7: when the host-name lookup fails, `helloWorld` still answers with status
200, and the host name in the body is the empty string. -/
theorem helloWorld_lookup_failure (r : Request) (log : List String) (err : String) :
    (Hostname (.error err)).1 = "" ∧
    (serveWith helloWorld r { hostname := .error err, log := log }).1 =
      { status := some 200,
        body := "Hello, World from ! Welcome to Cloud Native Infrastructure.\n" } := by
  refine ⟨rfl, ?_⟩
  simp [serveWith, helloWorld, logPrintf, Hostname, ResponseWriter.Write,
    ResponseWriter.WriteHeader, ResponseWriter.finishRequest, newResponse]

/-! ### Routing -/

theorem main_trace (env : Environ) (listenAndServe : String → ServeResult) :
    (main env listenAndServe).trace =
      [Event.logged ("Server starting on port " ++ getEnv env "PORT" "8080" ++ "\n"),
        Event.listenAndServe (":" ++ getEnv env "PORT" "8080")] ++
      (match listenAndServe (":" ++ getEnv env "PORT" "8080") with
        | .blocks => []
        | .returned none => [Event.osExit 0]
        | .returned (some err) => [Event.logged (logOutput err), Event.osExit 1]) := by
  simp only [main, HandleFunc, ServeMux.Handle, DefaultServeMux, logFatal]
  simp [logOutput_newline]
  split <;> simp

/-! ### Canonical paths begin with a slash -/

theorem dropWhile_length_le (t : List Char) (f : Char → Bool) :
    (t.dropWhile f).length ≤ t.length := by
  induction t with
  | nil => simp
  | cons x xs ih =>
    simp only [List.dropWhile]
    split
    · simp only [List.length_cons]; omega
    · simp

theorem cleanLoop_step (rooted : Bool) (fuel : Nat) : ∀ (rest out : List Char) (dotdot : Nat),
    rest.length ≤ fuel →
    cleanLoop rooted (fuel + 1) rest out dotdot = cleanLoop rooted fuel rest out dotdot := by
  induction fuel with
  | zero =>
    intro rest out dotdot h
    have : rest = [] := List.length_eq_zero.mp (by omega)
    subst this
    rfl
  | succ fuel ih =>
    intro rest out dotdot h
    cases rest with
    | nil => simp [cleanLoop]
    | cons c t =>
      have ht : t.length ≤ fuel := by simpa using h
      have htt : t.tail.length ≤ fuel := by
        have : t.tail.length ≤ t.length := by simp
        omega
      by_cases hc : c = '/'
      · simp only [cleanLoop, hc, if_true]
        exact ih _ _ _ ht
      · have hd : ((c :: t).dropWhile (fun x => x != '/')).length ≤ fuel := by
          have hb : (c != '/') = true := by simpa using hc
          have := dropWhile_length_le t (fun x => x != '/')
          simp only [List.dropWhile, hb]
          omega
        simp only [cleanLoop]
        split_ifs <;> first | exact ih _ _ _ ht | exact ih _ _ _ htt | exact ih _ _ _ hd

/-- The fuel `cleanLoop` is started with is enough: more fuel gives the same
result. -/
theorem cleanLoop_fuel (rooted : Bool) (rest out : List Char) (dotdot : Nat) (k : Nat) :
    cleanLoop rooted (rest.length + k) rest out dotdot =
      cleanLoop rooted rest.length rest out dotdot := by
  induction k with
  | zero => rfl
  | succ k ih =>
    rw [← ih]
    exact cleanLoop_step rooted (rest.length + k) rest out dotdot (by omega)

theorem NotFound_status (r : Request) (s : Sys) :
    (Served.handled (serveWith NotFound r s)).status = 404 := rfl

/-- C8: for every environment, `main` first logs `Server starting on port p`
and then binds the listener on `:p`, where `p` is `getEnv "PORT" "8080"`
unchanged; with `PORT` unset the address is `:8080`, with `PORT=9090` it is
`:9090`. -/
theorem main_listen (env : Environ) (listenAndServe : String → ServeResult) :
    (main env listenAndServe).trace.take 2 =
      [Event.logged ("Server starting on port " ++ getEnv env "PORT" "8080" ++ "\n"),
        Event.listenAndServe (":" ++ getEnv env "PORT" "8080")] ∧
    (main env listenAndServe).listened = [":" ++ getEnv env "PORT" "8080"] ∧
    (env "PORT" = none → (main env listenAndServe).listened = [":8080"]) ∧
    (env "PORT" = some "9090" → (main env listenAndServe).listened = [":9090"]) := by
  have hl : (main env listenAndServe).listened = [":" ++ getEnv env "PORT" "8080"] := by
    rw [Proc.listened, main_trace]
    split <;> simp [List.filterMap]
  refine ⟨?_, hl, fun h => ?_, fun h => ?_⟩
  · rw [main_trace]; simp
  · rw [hl, getEnv_none env _ _ h]; rfl
  · rw [hl, getEnv_some env _ _ _ h]; rfl

/-- C9: when `http.ListenAndServe` returns an error, `main` logs the error and
exits with status 1 after a single call; and `main` exits with a non-zero
status if and only if that call returns an error. -/
theorem main_fatal (env : Environ) (listenAndServe : String → ServeResult) :
    (∀ err, listenAndServe (":" ++ getEnv env "PORT" "8080") = .returned (some err) →
      (main env listenAndServe).trace =
        [Event.logged ("Server starting on port " ++ getEnv env "PORT" "8080" ++ "\n"),
          Event.listenAndServe (":" ++ getEnv env "PORT" "8080"),
          Event.logged (logOutput err), Event.osExit 1]) ∧
    ((∃ code, (main env listenAndServe).exitCode = some code ∧ code ≠ 0) ↔
      ∃ err, listenAndServe (":" ++ getEnv env "PORT" "8080") = .returned (some err)) ∧
    (main env listenAndServe).listened = [":" ++ getEnv env "PORT" "8080"] := by
  refine ⟨fun err h => ?_, ?_, ?_⟩
  · rw [main_trace, h]; rfl
  · rw [Proc.exitCode, main_trace]
    cases h : listenAndServe (":" ++ getEnv env "PORT" "8080") with
    | blocks => simp [List.findSome?]
    | returned e =>
      cases e with
      | none => simp [List.findSome?]
      | some err => simp [List.findSome?]
  · rw [Proc.listened, main_trace]
    split <;> simp [List.filterMap]

/-! ### Logging -/

/-- C10: for every request with path `p` and remote address `a`, `helloWorld`
appends exactly one record to the log, the line
`Received request for p from a`, and changes nothing else; `healthCheck`
leaves the log as it was. -/
theorem handler_logging (w : ResponseWriter) (r : Request) (s : Sys) :
    (helloWorld w r s).2 =
      { s with log := s.log ++
          [logOutput ("Received request for " ++ r.URL.Path ++ " from " ++ r.RemoteAddr)] } ∧
    (r.RemoteAddr.data.getLast? ≠ some '\n' →
      logOutput ("Received request for " ++ r.URL.Path ++ " from " ++ r.RemoteAddr) =
        "Received request for " ++ r.URL.Path ++ " from " ++ r.RemoteAddr ++ "\n") ∧
    (healthCheck w r s).2 = s := by
  refine ⟨rfl, fun h => ?_, rfl⟩
  unfold logOutput
  rw [if_neg]
  intro hc
  apply h
  have hfrom : (" from " : String).data =
      [Char.ofNat 32, Char.ofNat 102, Char.ofNat 114, Char.ofNat 111, Char.ofNat 109,
        Char.ofNat 32] := by decide
  simp only [String.data_append, hfrom] at hc
  cases ha : r.RemoteAddr.data with
  | nil =>
    rw [ha, List.append_nil, List.getLast?_append_of_ne_nil _ (by simp)] at hc
    simp at hc
  | cons c cs =>
    rw [ha, List.getLast?_append_of_ne_nil _ (by simp)] at hc
    exact hc

end HelloWorld
